import Mathlib

/-!
Verification of the `bbbs` secure-boot repackaging pipeline (`src/lib.rs`).

The core logic is `build` in `lib.rs`, plus the second-stage image builder
`make_sa1`.  The external collaborators (the `bb` crate's record decoders
`CmdHead::read_from_buf` / `Virage2::read_from_buf`, the key-derivation
function `bootrom_keys`, the `soft_aes` cipher primitives `aes_dec_cbc` /
`aes_enc_cbc`, the `sha1` hash, and the byte-source reads of `args.rs`) are
modelled as parameters collected in an `Externs` record, with their fallibility
(`Result` in Rust) as `Except` / `Option`.

`build` is embedded statement by statement from `lib.rs`, returning the
final `Outcome` together with a trace (`List Op`) of the externally visible
operations it performed, in order: reading the trust-anchor descriptor and
the boot ROM, the key-derivation and cipher/hash invocations, and the final
write of the assembled container to the output sink.

Rust `.expect(msg)` on a failed `Result` aborts the process; this is the
`Outcome.panic msg` constructor.  Rust integer subtraction that underflows
aborts in a debug build ("attempt to subtract with overflow") and is not a
well-defined value of the expression in any build; an underflowing
subtraction is therefore also modelled as a panic outcome.
-/

/-- Bytes are modelled as lists of naturals (each intended < 256). -/
abbrev Bytes := List Nat

/-- `SK_SIZE` from `lib.rs`: 64 KiB first-stage kernel region. -/
def SK_SIZE : Nat := 64 * 1024

/-- `SA1_INFO_BLOCK_SIZE` from `lib.rs`: 16 KiB info block. -/
def SA1_INFO_BLOCK_SIZE : Nat := 16 * 1024

/-- `SKSA_MIN_BYTES` from `lib.rs`: minimum container length. -/
def SKSA_MIN_BYTES : Nat := SK_SIZE + SA1_INFO_BLOCK_SIZE

/-- `ROM_HEADER_SIZE` from `lib.rs`: 4 KiB second-stage header. -/
def ROM_HEADER_SIZE : Nat := 4 * 1024

/-- `ENTRYPOINT_OFFSET` from `lib.rs`: `2 * size_of::<u32>()` = 8. -/
def ENTRYPOINT_OFFSET : Nat := 2 * 4

/-- `UNZIP_BUF_OFFSET` from `lib.rs`: the unzip-buffer load address. -/
def UNZIP_BUF_OFFSET : Nat := 0x80300000

/-- Big-endian byte encoding of a `u32`, as in Rust `u32::to_be_bytes`. -/
def u32BeBytes (n : Nat) : Bytes :=
  [n / 2 ^ 24 % 256, n / 2 ^ 16 % 256, n / 2 ^ 8 % 256, n % 256]

/-- Lower-case hexadecimal digit for a nibble. -/
def hexDigit (n : Nat) : Char :=
  if n < 10 then Char.ofNat (48 + n) else Char.ofNat (87 + n)

/-- Hexadecimal rendering of a byte string, two lower-case digits per byte.
Models `bb::HashHex::to_hex` on a 20-byte digest. -/
def toHex (b : Bytes) : String :=
  String.mk (b.foldr (fun x acc => hexDigit (x / 16 % 16) :: hexDigit (x % 16) :: acc) [])

/-- The decoded command header (`bb::CmdHead`): the fields `lib.rs` uses.
`key` is the encrypted session key, `common_cmd_iv` decrypts it, `iv` is the
per-image IV and `size` the `u32` target image size. -/
structure CmdHead where
  key : Bytes
  common_cmd_iv : Bytes
  iv : Bytes
  size : Nat
deriving Repr, DecidableEq

/-- The decoded trust-anchor descriptor (`bb::Virage2`): the fields `lib.rs`
uses.  `sk_hash` is the expected 20-byte kernel digest, `boot_app_key` the
boot-application key. -/
structure Virage2 where
  sk_hash : Bytes
  boot_app_key : Bytes
deriving Repr, DecidableEq

/-- The `BBBSError` enum from `lib.rs`.  Its three variants carry exactly
what the Rust variants carry: the too-short container's actual length, the
oversized payload's length and the computed maximum, and the two hex digest
strings (calculated first, expected second, as built by `from_hashes`). -/
inductive BBBSError where
  | SKSATooShort (got : Nat)
  | PayloadTooLong (got : Nat) (max : Nat)
  | InvalidSKHash (calculated : String) (expected : String)
deriving Repr, DecidableEq

/-- A pipeline error as surfaced to the caller of `build` (`anyhow::Result`):
either one of the named `BBBSError` values, or an error propagated by `?`
from an external collaborator, tagged by the site that produced it. -/
inductive BuildError where
  | bbbs (e : BBBSError)
  | infileReadFail
  | sksaReadFail
  | cmdDecodeFail
  | virage2ReadFail
  | virage2DecodeFail
  | bootromReadFail
  | bootromKeysFail
  | writeFail
deriving Repr, DecidableEq

/-- The ways `build` can abort the process instead of returning: the
`.expect` messages of the three cipher calls (lines 79, 92 and 97 of
`lib.rs`), and the debug-build abort of an underflowing subtraction
(line 66). -/
inductive PanicMsg where
  | subtractOverflow
  | decryptionFailed
  | encryptionFailed
deriving Repr, DecidableEq

/-- Outcome of a `build` run: clean success, an error returned to the
caller, or a process abort via `.expect` / arithmetic underflow. -/
inductive Outcome where
  | ok
  | err (e : BuildError)
  | panic (msg : PanicMsg)
deriving Repr, DecidableEq

/-- Externally visible operations of a `build` run, in program order:
consuming the trust-anchor descriptor and boot ROM inputs, invoking the
key-derivation function, the cipher and the hash, and writing the assembled
container (with the exact bytes passed to the sink). -/
inductive Op where
  | readVirage2
  | readBootrom
  | deriveKeys
  | aesDecSK
  | sha1SK
  | aesDecKey
  | aesEncSA1
  | write (bytes : Bytes)
deriving Repr, DecidableEq

/-- The external collaborators of `lib.rs`, as opaque parameters:
`CmdHead::SIZE` and the two record decoders, `bootrom_keys`, the two
`soft_aes` CBC primitives (with their `None` padding argument fixed, as at
every call site), and SHA-1 as a total digest function. -/
structure Externs where
  cmdHeadSize : Nat
  read_cmd_head : Bytes → Except Unit CmdHead
  read_virage2 : Bytes → Except Unit Virage2
  bootrom_keys : Bytes → Except Unit (Bytes × Bytes)
  aes_dec_cbc : Bytes → Bytes → Bytes → Option Bytes
  aes_enc_cbc : Bytes → Bytes → Bytes → Option Bytes
  sha1 : Bytes → Bytes

/-- The resolved inputs of `args.rs`: the result of each byte-source read
(`IOType::read`), and whether the final `IOType::write` succeeds. -/
structure Args where
  infile : Except Unit Bytes
  sksa : Except Unit Bytes
  virage2 : Except Unit Bytes
  bootrom : Except Unit Bytes
  writeOk : Bool

/-- Rust `usize` subtraction: defined only when it does not underflow
(an underflow aborts a debug build and is never a well-defined value). -/
def usizeSub (a b : Nat) : Option Nat :=
  if b ≤ a then some (a - b) else none

/-- `make_sa1` from `lib.rs`: a zeroed `ROM_HEADER_SIZE` buffer, the
big-endian `UNZIP_BUF_OFFSET` written over bytes
`ENTRYPOINT_OFFSET .. ENTRYPOINT_OFFSET+4`, then the payload appended. -/
def make_sa1 (payload : Bytes) : Bytes :=
  let rv := List.replicate ROM_HEADER_SIZE 0
  let rv := rv.take ENTRYPOINT_OFFSET ++ u32BeBytes UNZIP_BUF_OFFSET
    ++ rv.drop (ENTRYPOINT_OFFSET + 4)
  rv ++ payload

/-- Rust `Vec::resize(n, v)`: truncate to `n` when shorter, extend with `v`
when longer. -/
def vecResize (l : Bytes) (n : Nat) (v : Nat) : Bytes :=
  l.take n ++ List.replicate (n - l.length) v

/-- The tail of `build` (`lib.rs` lines 72-105): everything after the
capacity check has passed, from reading the trust-anchor descriptor through
writing the assembled output.  `infile`, `sksa` and `cmd` are the values in
scope at that point of `build`. -/
def buildTail (ext : Externs) (args : Args) (infile sksa : Bytes) (cmd : CmdHead) :
    Outcome × List Op :=
  match args.virage2 with
  | .error _ => (.err .virage2ReadFail, [.readVirage2])
  | .ok v2buf =>
    match ext.read_virage2 v2buf with
    | .error _ => (.err .virage2DecodeFail, [.readVirage2])
    | .ok virage2 =>
      match args.bootrom with
      | .error _ => (.err .bootromReadFail, [.readVirage2, .readBootrom])
      | .ok bootrom =>
        match ext.bootrom_keys bootrom with
        | .error _ =>
          (.err .bootromKeysFail, [.readVirage2, .readBootrom, .deriveKeys])
        | .ok (sk_key, sk_iv) =>
          match ext.aes_dec_cbc (sksa.take SK_SIZE) sk_key sk_iv with
          | none =>
            (.panic .decryptionFailed,
              [.readVirage2, .readBootrom, .deriveKeys, .aesDecSK])
          | some skPlain =>
            let sk_hash := ext.sha1 skPlain
            if sk_hash ≠ virage2.sk_hash then
              (.err (.bbbs (.InvalidSKHash (toHex sk_hash) (toHex virage2.sk_hash))),
                [.readVirage2, .readBootrom, .deriveKeys, .aesDecSK, .sha1SK])
            else
              match ext.aes_dec_cbc cmd.key virage2.boot_app_key cmd.common_cmd_iv with
              | none =>
                (.panic .decryptionFailed,
                  [.readVirage2, .readBootrom, .deriveKeys, .aesDecSK, .sha1SK,
                    .aesDecKey])
              | some sa1_key =>
                let sa1 := vecResize (make_sa1 infile) cmd.size 0
                match ext.aes_enc_cbc sa1 sa1_key cmd.iv with
                | none =>
                  (.panic .encryptionFailed,
                    [.readVirage2, .readBootrom, .deriveKeys, .aesDecSK, .sha1SK,
                      .aesDecKey, .aesEncSA1])
                | some sa1_enc =>
                  let outfile := sksa.take SKSA_MIN_BYTES ++ sa1_enc
                  (if args.writeOk then .ok else .err .writeFail,
                    [.readVirage2, .readBootrom, .deriveKeys, .aesDecSK, .sha1SK,
                      .aesDecKey, .aesEncSA1, .write outfile])

/-- `build` from `lib.rs`, statement by statement.  Returns the outcome and
the trace of externally visible operations performed before finishing. -/
def build (ext : Externs) (args : Args) : Outcome × List Op :=
  match args.infile with
  | .error _ => (.err .infileReadFail, [])
  | .ok infile =>
    match args.sksa with
    | .error _ => (.err .sksaReadFail, [])
    | .ok sksa =>
      if sksa.length < SKSA_MIN_BYTES then
        (.err (.bbbs (.SKSATooShort sksa.length)), [])
      else
        let cmdBuf := (sksa.drop SK_SIZE).take ext.cmdHeadSize
        match ext.read_cmd_head cmdBuf with
        | .error _ => (.err .cmdDecodeFail, [])
        | .ok cmd =>
          match usizeSub cmd.size ROM_HEADER_SIZE with
          | none => (.panic .subtractOverflow, [])
          | some maxPayload =>
            if infile.length > maxPayload then
              (.err (.bbbs (.PayloadTooLong infile.length maxPayload)), [])
            else
              buildTail ext args infile sksa cmd

/-- Once the reads succeed and the length, decode and capacity gates pass,
`build` continues as `buildTail`. -/
theorem build_eq_tail (ext : Externs) (args : Args) (infile sksa : Bytes) (cmd : CmdHead)
    (maxPayload : Nat)
    (hin : args.infile = .ok infile) (hsk : args.sksa = .ok sksa)
    (hlen : ¬ sksa.length < SKSA_MIN_BYTES)
    (hcmd : ext.read_cmd_head ((sksa.drop SK_SIZE).take ext.cmdHeadSize) = .ok cmd)
    (hsub : usizeSub cmd.size ROM_HEADER_SIZE = some maxPayload)
    (hcap : ¬ infile.length > maxPayload) :
    build ext args = buildTail ext args infile sksa cmd := by
  simp [build, hin, hsk, hlen, hcmd, hsub, hcap]

/-- When every stage of the tail succeeds (including the hash comparison),
`buildTail` evaluates to the final write step. -/
theorem buildTail_success (ext : Externs) (args : Args) (infile sksa : Bytes) (cmd : CmdHead)
    (v2buf : Bytes) (virage2 : Virage2) (bootrom sk_key sk_iv skPlain sa1_key sa1_enc : Bytes)
    (hv2 : args.virage2 = .ok v2buf)
    (hv2d : ext.read_virage2 v2buf = .ok virage2)
    (hbr : args.bootrom = .ok bootrom)
    (hkeys : ext.bootrom_keys bootrom = .ok (sk_key, sk_iv))
    (hdec : ext.aes_dec_cbc (sksa.take SK_SIZE) sk_key sk_iv = some skPlain)
    (hhash : ext.sha1 skPlain = virage2.sk_hash)
    (hdec2 : ext.aes_dec_cbc cmd.key virage2.boot_app_key cmd.common_cmd_iv = some sa1_key)
    (henc : ext.aes_enc_cbc (vecResize (make_sa1 infile) cmd.size 0) sa1_key cmd.iv
      = some sa1_enc) :
    buildTail ext args infile sksa cmd =
      ((if args.writeOk then .ok else .err .writeFail),
        [.readVirage2, .readBootrom, .deriveKeys, .aesDecSK, .sha1SK,
          .aesDecKey, .aesEncSA1, .write (sksa.take SKSA_MIN_BYTES ++ sa1_enc)]) := by
  simp [buildTail, hv2, hv2d, hbr, hkeys, hdec, hhash, hdec2, henc]

/-- The second-stage image before padding: an 8-byte zero prefix, the
big-endian load address, zeros up to `ROM_HEADER_SIZE`, then the payload. -/
theorem make_sa1_eq (payload : Bytes) :
    make_sa1 payload =
      List.replicate 8 0 ++ [0x80, 0x30, 0x00, 0x00]
        ++ List.replicate 4084 0 ++ payload := by
  rw [make_sa1]
  rw [show ROM_HEADER_SIZE = 4096 by rfl, show ENTRYPOINT_OFFSET = 8 by rfl]
  rw [List.take_replicate, List.drop_replicate]
  norm_num [u32BeBytes, UNZIP_BUF_OFFSET]

/-- `make_sa1` produces `ROM_HEADER_SIZE` header bytes followed by the
payload. -/
theorem length_make_sa1 (payload : Bytes) :
    (make_sa1 payload).length = ROM_HEADER_SIZE + payload.length := by
  rw [make_sa1_eq, show ROM_HEADER_SIZE = 4096 from rfl]
  simp [-List.reduceReplicate]
  omega

/-- `Vec::resize(n, v)` always yields length exactly `n`. -/
theorem length_vecResize (l : Bytes) (n : Nat) (v : Nat) :
    (vecResize l n v).length = n := by
  simp [vecResize]
  omega

/-- Resizing upward never drops a byte: the original list is kept whole and
zero-extended. -/
theorem vecResize_of_le (l : Bytes) (n : Nat) (v : Nat) (h : l.length ≤ n) :
    vecResize l n v = l ++ List.replicate (n - l.length) v := by
  simp [vecResize, List.take_of_length_le h]

/-- A 20-byte test digest. -/
def hashW : Bytes := List.replicate 20 0

/-- A 16-byte test key / IV. -/
def key16 : Bytes := List.replicate 16 0

/-- A decoded command header whose target image size is exactly
`ROM_HEADER_SIZE` (so an empty payload fits). -/
def cmdW : CmdHead :=
  { key := key16, common_cmd_iv := key16, iv := key16, size := ROM_HEADER_SIZE }

/-- A trust-anchor descriptor whose expected digest is `hashW`. -/
def virage2W : Virage2 := { sk_hash := hashW, boot_app_key := key16 }

/-- Test collaborators on which every stage succeeds: decoders return the
fixed records, both ciphers are the identity, and the hash is constantly
`hashW` (matching `virage2W`). -/
def extW : Externs :=
  { cmdHeadSize := 256
    read_cmd_head := fun _ => .ok cmdW
    read_virage2 := fun _ => .ok virage2W
    bootrom_keys := fun _ => .ok (key16, key16)
    aes_dec_cbc := fun b _ _ => some b
    aes_enc_cbc := fun b _ _ => some b
    sha1 := fun _ => hashW }

/-- A minimum-length all-zero container. -/
def sksaW : Bytes := List.replicate SKSA_MIN_BYTES 0

/-- Inputs on which every read succeeds: empty payload, minimum container,
and a writable sink. -/
def argsW : Args :=
  { infile := .ok [], sksa := .ok sksaW, virage2 := .ok [], bootrom := .ok [],
    writeOk := true }

/-- The container `build` writes on the all-succeeding test inputs. -/
def outW : Bytes := sksaW ++ make_sa1 []

/-- The minimum-length test container has exactly the minimum length. -/
theorem sksaW_length : sksaW.length = SKSA_MIN_BYTES := by
  simp [sksaW]

/-- On the all-succeeding test inputs, `build` succeeds and writes `outW`. -/
theorem buildW_eval :
    build extW argsW =
      (.ok, [.readVirage2, .readBootrom, .deriveKeys, .aesDecSK, .sha1SK,
        .aesDecKey, .aesEncSA1, .write outW]) := by
  rw [build_eq_tail extW argsW [] sksaW cmdW 0 rfl rfl (by simp [sksaW_length]) rfl
    (by decide) (by decide)]
  rw [buildTail_success extW argsW [] sksaW cmdW [] virage2W [] key16 key16
    (sksaW.take SK_SIZE) cmdW.key
    (vecResize (make_sa1 []) cmdW.size 0) rfl rfl rfl rfl rfl rfl rfl rfl]
  have h1 : sksaW.take SKSA_MIN_BYTES = sksaW := by
    apply List.take_of_length_le
    rw [sksaW_length]
  have h2 : vecResize (make_sa1 []) cmdW.size 0 = make_sa1 [] := by
    rw [vecResize_of_le]
    · rw [length_make_sa1]
      show make_sa1 [] ++ List.replicate (cmdW.size - (ROM_HEADER_SIZE + 0)) 0 = make_sa1 []
      norm_num [cmdW]
    · rw [length_make_sa1]
      norm_num [cmdW]
  rw [h1, h2]
  rfl

/-- A command header whose target image size (0x1008) is not a multiple of
the AES block size — a realistic header on which `aes_enc_cbc` fails. -/
def cmdC1 : CmdHead :=
  { key := key16, common_cmd_iv := key16, iv := key16, size := 4104 }

/-- Collaborators identical to `extW` except that the header decodes to
`cmdC1` and the block cipher refuses, as real AES-CBC with no padding does,
any buffer whose length is not a multiple of 16. -/
def extC1 : Externs :=
  { extW with
    read_cmd_head := fun _ => .ok cmdC1
    aes_enc_cbc := fun b _ _ => if b.length % 16 = 0 then some b else none }

/-- A command header whose target image size is smaller than
`ROM_HEADER_SIZE` (here 0), on which the capacity check underflows. -/
def cmdC4 : CmdHead :=
  { key := key16, common_cmd_iv := key16, iv := key16, size := 0 }

/-- Collaborators identical to `extW` except that the header decodes to
`cmdC4`. -/
def extC4 : Externs := { extW with read_cmd_head := fun _ => .ok cmdC4 }

/-- Inputs whose container read yields an empty (too short) container. -/
def argsShort : Args :=
  { infile := .ok [], sksa := .ok [], virage2 := .ok [], bootrom := .ok [],
    writeOk := true }

/-- Inputs with a one-byte payload, too long for `cmdW`'s zero capacity. -/
def argsC3 : Args :=
  { infile := .ok [0], sksa := .ok sksaW, virage2 := .ok [], bootrom := .ok [],
    writeOk := true }

/-- C8: for every container shorter than `SKSA_MIN_BYTES` bytes, `build`
rejects with the named too-short error carrying the actual length (the
required length `SKSA_MIN_BYTES` is the constant interpolated into the
variant's message), with an empty operation trace: the trust-anchor and
boot-ROM inputs are never consumed and no key-derivation, cipher or hash
function is ever invoked — for every choice of external collaborators. -/
theorem short_container_rejected_before_crypto (ext : Externs) (args : Args)
    (infile sksa : Bytes)
    (hin : args.infile = .ok infile) (hsk : args.sksa = .ok sksa)
    (hlen : sksa.length < SKSA_MIN_BYTES) :
    build ext args = (.err (.bbbs (.SKSATooShort sksa.length)), []) := by
  simp [build, hin, hsk, hlen]

/-- C8 witness: the empty container is rejected with `SKSATooShort 0` and
an empty trace. -/
theorem short_container_rejected_before_crypto_witness :
    build extW argsShort = (.err (.bbbs (.SKSATooShort 0)), []) :=
  short_container_rejected_before_crypto extW argsShort [] [] rfl rfl (by decide)

/-- C3: whenever the decoded header's target image size is at least
`ROM_HEADER_SIZE` (the header invariant of the data model) and the payload
is longer than `target_image_size - ROM_HEADER_SIZE`, `build` rejects with
the named payload-too-long error carrying the actual length and the
computed maximum, with an empty operation trace: before the kernel is
decrypted and before the trust-anchor descriptor or boot ROM is consumed. -/
theorem oversized_payload_rejected_early (ext : Externs) (args : Args)
    (infile sksa : Bytes) (cmd : CmdHead)
    (hin : args.infile = .ok infile) (hsk : args.sksa = .ok sksa)
    (hlen : ¬ sksa.length < SKSA_MIN_BYTES)
    (hcmd : ext.read_cmd_head ((sksa.drop SK_SIZE).take ext.cmdHeadSize) = .ok cmd)
    (hge : ROM_HEADER_SIZE ≤ cmd.size)
    (hcap : infile.length > cmd.size - ROM_HEADER_SIZE) :
    build ext args
      = (.err (.bbbs (.PayloadTooLong infile.length (cmd.size - ROM_HEADER_SIZE))), []) := by
  have hsub : usizeSub cmd.size ROM_HEADER_SIZE = some (cmd.size - ROM_HEADER_SIZE) := by
    simp [usizeSub, hge]
  simp [build, hin, hsk, hlen, hcmd, hsub, hcap]

/-- C3 witness: a one-byte payload against `cmdW` (capacity 0) is rejected
with `PayloadTooLong 1 0` and an empty trace. -/
theorem oversized_payload_rejected_early_witness :
    build extW argsC3 = (.err (.bbbs (.PayloadTooLong 1 0)), []) :=
  oversized_payload_rejected_early extW argsC3 [0] sksaW cmdW rfl rfl
    (by simp [sksaW_length]) rfl (by decide) (by decide)

/-- C1 (code bug): on a realistic input — every stage sound, but the
header's target image size 0x1008 is not a multiple of the AES block size,
so `aes_enc_cbc` fails — `build` aborts the process via
`.expect("encryption failed")` (`lib.rs` line 97) instead of returning an
error value.  `BBBSError` has no cipher-failure variant at all; the other
two cipher calls (`lib.rs` lines 79 and 92) likewise `.expect`.  This
contradicts the specified behaviour that every cipher failure is surfaced
as a distinct, named Cipher-failure error and never aborts uncontrolled. -/
theorem cipher_failure_aborts_uncontrolled :
    build extC1 argsW =
      (.panic .encryptionFailed,
        [.readVirage2, .readBootrom, .deriveKeys, .aesDecSK, .sha1SK,
          .aesDecKey, .aesEncSA1]) := by
  rw [build_eq_tail extC1 argsW [] sksaW cmdC1 (cmdC1.size - ROM_HEADER_SIZE) rfl rfl
    (by simp [sksaW_length]) rfl (by decide) (by decide)]
  have hLen : (vecResize (make_sa1 []) cmdC1.size 0).length = 4104 := by
    simp [length_vecResize, cmdC1]
  have henc : extC1.aes_enc_cbc (vecResize (make_sa1 []) cmdC1.size 0) cmdC1.key cmdC1.iv
      = none := by
    simp only [extC1, hLen]
    norm_num
  have h1 : argsW.virage2 = .ok [] := rfl
  have h2 : extC1.read_virage2 [] = .ok virage2W := rfl
  have h3 : argsW.bootrom = .ok [] := rfl
  have h4 : extC1.bootrom_keys [] = .ok (key16, key16) := rfl
  have h5 : extC1.aes_dec_cbc (sksaW.take SK_SIZE) key16 key16
      = some (sksaW.take SK_SIZE) := rfl
  have h6 : extC1.sha1 (sksaW.take SK_SIZE) = virage2W.sk_hash := rfl
  have h7 : extC1.aes_dec_cbc cmdC1.key virage2W.boot_app_key cmdC1.common_cmd_iv
      = some cmdC1.key := rfl
  simp [buildTail, h1, h2, h3, h4, h5, h6, h7, henc]

/-- C4 counterexample: a decodable header with target image size 0
(< `ROM_HEADER_SIZE`) makes the capacity check's subtraction
`cmd.size as usize - ROM_HEADER_SIZE` underflow: evaluating the check is
not total — the run aborts before any comparison happens, for any payload. -/
theorem capacity_check_underflow_cex :
    build extC4 argsW = (.panic .subtractOverflow, []) := by
  have hin : argsW.infile = .ok [] := rfl
  have hsk : argsW.sksa = .ok sksaW := rfl
  have hlen : ¬ sksaW.length < SKSA_MIN_BYTES := by simp [sksaW_length]
  have hcmd : extC4.read_cmd_head ((sksaW.drop SK_SIZE).take extC4.cmdHeadSize)
      = .ok cmdC4 := rfl
  have hsub : usizeSub cmdC4.size ROM_HEADER_SIZE = none := by decide
  simp [build, hin, hsk, hlen, hcmd, hsub]

/-- No branch of the pipeline tail can produce the subtraction-underflow
abort: its only aborts are the cipher `.expect`s. -/
theorem buildTail_fst_ne_subtractOverflow (ext : Externs) (args : Args)
    (infile sksa : Bytes) (cmd : CmdHead) :
    (buildTail ext args infile sksa cmd).fst ≠ .panic .subtractOverflow := by
  unfold buildTail
  rcases args.virage2 with _ | v2buf
  · simp
  dsimp only
  rcases ext.read_virage2 v2buf with _ | v2
  · simp
  dsimp only
  rcases args.bootrom with _ | br
  · simp
  dsimp only
  rcases ext.bootrom_keys br with _ | ⟨k, iv⟩
  · simp
  dsimp only
  rcases ext.aes_dec_cbc (sksa.take SK_SIZE) k iv with _ | sp
  · simp
  dsimp only
  by_cases hh : ext.sha1 sp ≠ v2.sk_hash
  · rw [if_pos hh]
    simp
  rw [if_neg hh]
  rcases ext.aes_dec_cbc cmd.key v2.boot_app_key cmd.common_cmd_iv with _ | sa1_key
  · simp
  dsimp only
  rcases ext.aes_enc_cbc (vecResize (make_sa1 infile) cmd.size 0) sa1_key cmd.iv with _ | e
  · simp
  dsimp only
  rcases args.writeOk with _ | _ <;> simp

/-- C4 amended: evaluating the capacity bound
`cmd.size as usize - ROM_HEADER_SIZE` is well defined exactly for decoded
headers with `target_image_size ≥ ROM_HEADER_SIZE` — for those the run
never aborts with the subtraction underflow; for every header with
`target_image_size < ROM_HEADER_SIZE` the subtraction underflows and the
run aborts before the comparison, regardless of the payload. -/
theorem capacity_check_subtraction_boundary (ext : Externs) (args : Args)
    (infile sksa : Bytes) (cmd : CmdHead)
    (hin : args.infile = .ok infile) (hsk : args.sksa = .ok sksa)
    (hlen : ¬ sksa.length < SKSA_MIN_BYTES)
    (hcmd : ext.read_cmd_head ((sksa.drop SK_SIZE).take ext.cmdHeadSize) = .ok cmd) :
    (cmd.size < ROM_HEADER_SIZE → build ext args = (.panic .subtractOverflow, []))
    ∧ (ROM_HEADER_SIZE ≤ cmd.size →
        (build ext args).fst ≠ .panic .subtractOverflow) := by
  constructor
  · intro hlt
    have hsub : usizeSub cmd.size ROM_HEADER_SIZE = none := by
      simp only [usizeSub, if_neg (by omega : ¬ ROM_HEADER_SIZE ≤ cmd.size)]
    simp [build, hin, hsk, hlen, hcmd, hsub]
  · intro hge
    have hsub : usizeSub cmd.size ROM_HEADER_SIZE = some (cmd.size - ROM_HEADER_SIZE) := by
      simp [usizeSub, hge]
    by_cases hcap : infile.length > cmd.size - ROM_HEADER_SIZE
    · simp [build, hin, hsk, hlen, hcmd, hsub, hcap]
    · rw [build_eq_tail ext args infile sksa cmd _ hin hsk hlen hcmd hsub hcap]
      exact buildTail_fst_ne_subtractOverflow ext args infile sksa cmd

/-- C4 amended, witness: on `cmdW` (target size `ROM_HEADER_SIZE`) the run
never aborts with the subtraction underflow. -/
theorem capacity_check_subtraction_boundary_witness :
    (build extW argsW).fst ≠ .panic .subtractOverflow :=
  (capacity_check_subtraction_boundary extW argsW [] sksaW cmdW rfl rfl
    (by simp [sksaW_length]) rfl).2 (by decide)

/-- C2: once the gates pass and the first `SK_SIZE` bytes of the container
have been CBC-decrypted (no padding removal) under the boot-ROM-derived
`(key, iv)` pair, `build` fails with the named invalid-SK-hash error
carrying the calculated and the expected digest in hexadecimal if and only
if the SHA-1 digest of the plaintext differs from the trust-anchor's
expected digest, and otherwise proceeds to the session-key decryption. -/
theorem decrypt_verify_gate (ext : Externs) (args : Args)
    (infile sksa : Bytes) (cmd : CmdHead) (maxPayload : Nat)
    (v2buf : Bytes) (virage2 : Virage2) (bootrom sk_key sk_iv skPlain : Bytes)
    (hin : args.infile = .ok infile) (hsk : args.sksa = .ok sksa)
    (hlen : ¬ sksa.length < SKSA_MIN_BYTES)
    (hcmd : ext.read_cmd_head ((sksa.drop SK_SIZE).take ext.cmdHeadSize) = .ok cmd)
    (hsub : usizeSub cmd.size ROM_HEADER_SIZE = some maxPayload)
    (hcap : ¬ infile.length > maxPayload)
    (hv2 : args.virage2 = .ok v2buf)
    (hv2d : ext.read_virage2 v2buf = .ok virage2)
    (hbr : args.bootrom = .ok bootrom)
    (hkeys : ext.bootrom_keys bootrom = .ok (sk_key, sk_iv))
    (hdec : ext.aes_dec_cbc (sksa.take SK_SIZE) sk_key sk_iv = some skPlain) :
    ((build ext args).fst
        = .err (.bbbs (.InvalidSKHash (toHex (ext.sha1 skPlain)) (toHex virage2.sk_hash)))
      ↔ ext.sha1 skPlain ≠ virage2.sk_hash)
    ∧ (ext.sha1 skPlain = virage2.sk_hash → Op.aesDecKey ∈ (build ext args).snd) := by
  rw [build_eq_tail ext args infile sksa cmd maxPayload hin hsk hlen hcmd hsub hcap]
  unfold buildTail
  rw [hv2]
  dsimp only
  rw [hv2d]
  dsimp only
  rw [hbr]
  dsimp only
  rw [hkeys]
  dsimp only
  rw [hdec]
  dsimp only
  by_cases hh : ext.sha1 skPlain = virage2.sk_hash
  · rw [if_neg (not_not_intro hh)]
    rcases ext.aes_dec_cbc cmd.key virage2.boot_app_key cmd.common_cmd_iv with _ | sa1_key
    · exact ⟨by simp [hh], fun _ => by simp⟩
    dsimp only
    rcases ext.aes_enc_cbc (vecResize (make_sa1 infile) cmd.size 0) sa1_key cmd.iv with _ | e
    · exact ⟨by simp [hh], fun _ => by simp⟩
    dsimp only
    refine ⟨?_, fun _ => by simp⟩
    rcases args.writeOk with _ | _ <;> simp [hh]
  · rw [if_pos hh]
    exact ⟨by simp [hh], fun h => absurd h hh⟩

/-- C2 witness: on the all-succeeding test inputs the digests match, the
invalid-hash error is not produced, and the session-key decryption is
reached. -/
theorem decrypt_verify_gate_witness :
    ((build extW argsW).fst
        = .err (.bbbs (.InvalidSKHash (toHex (extW.sha1 (sksaW.take SK_SIZE)))
            (toHex virage2W.sk_hash)))
      ↔ extW.sha1 (sksaW.take SK_SIZE) ≠ virage2W.sk_hash)
    ∧ (extW.sha1 (sksaW.take SK_SIZE) = virage2W.sk_hash
        → Op.aesDecKey ∈ (build extW argsW).snd) :=
  decrypt_verify_gate extW argsW [] sksaW cmdW 0 [] virage2W [] key16 key16
    (sksaW.take SK_SIZE) rfl rfl (by simp [sksaW_length]) rfl (by decide) (by decide)
    rfl rfl rfl rfl rfl

/-- C5: the second-stage plaintext image is the `ROM_HEADER_SIZE`-byte
zero header with the big-endian load address at the entrypoint offset,
followed by the payload verbatim, zero-extended to exactly the target
size; under the upstream capacity precondition the resize keeps every
header and payload byte (pure extension, no truncation). -/
theorem sa1_image_layout (payload : Bytes) (size : Nat)
    (h : payload.length + ROM_HEADER_SIZE ≤ size) :
    make_sa1 payload
        = List.replicate ENTRYPOINT_OFFSET 0 ++ u32BeBytes UNZIP_BUF_OFFSET
          ++ List.replicate (ROM_HEADER_SIZE - ENTRYPOINT_OFFSET - 4) 0 ++ payload
    ∧ vecResize (make_sa1 payload) size 0
        = make_sa1 payload ++ List.replicate (size - (ROM_HEADER_SIZE + payload.length)) 0
    ∧ (vecResize (make_sa1 payload) size 0).length = size := by
  refine ⟨?_, ?_, length_vecResize _ _ _⟩
  · rw [make_sa1_eq]
    norm_num [ENTRYPOINT_OFFSET, ROM_HEADER_SIZE, u32BeBytes, UNZIP_BUF_OFFSET]
  · rw [vecResize_of_le _ _ _ (by rw [length_make_sa1]; omega), length_make_sa1]

/-- C5 witness: a 3-byte payload with target size 4100. -/
theorem sa1_image_layout_witness :
    make_sa1 [1, 2, 3]
        = List.replicate ENTRYPOINT_OFFSET 0 ++ u32BeBytes UNZIP_BUF_OFFSET
          ++ List.replicate (ROM_HEADER_SIZE - ENTRYPOINT_OFFSET - 4) 0 ++ [1, 2, 3]
    ∧ vecResize (make_sa1 [1, 2, 3]) 4100 0
        = make_sa1 [1, 2, 3] ++ List.replicate (4100 - (ROM_HEADER_SIZE + 3)) 0
    ∧ (vecResize (make_sa1 [1, 2, 3]) 4100 0).length = 4100 :=
  sa1_image_layout [1, 2, 3] 4100 (by decide)

/-- C9: in the plaintext image handed to encryption — the resized
`make_sa1` output — the 4 bytes at the entrypoint offset are the
big-endian load address, for every payload accepted by the capacity
check (target size at least `ROM_HEADER_SIZE` and payload within the
computed maximum). -/
theorem entrypoint_invariant (payload : Bytes) (size : Nat)
    (hge : ROM_HEADER_SIZE ≤ size) (hcap : payload.length ≤ size - ROM_HEADER_SIZE) :
    ((vecResize (make_sa1 payload) size 0).drop ENTRYPOINT_OFFSET).take 4
      = u32BeBytes UNZIP_BUF_OFFSET := by
  have hlen : (make_sa1 payload).length ≤ size := by
    rw [length_make_sa1]
    rw [show ROM_HEADER_SIZE = 4096 from rfl] at *
    omega
  rw [vecResize_of_le _ _ _ hlen, make_sa1_eq]
  simp only [List.append_assoc]
  rw [show ENTRYPOINT_OFFSET = 8 from rfl]
  rw [List.drop_append_of_le_length (by simp)]
  rw [List.drop_replicate]
  norm_num
  decide

/-- C9 witness: a 4-byte payload with target size `ROM_HEADER_SIZE + 4`:
bytes 8-11 of the image are 0x80 0x30 0x00 0x00. -/
theorem entrypoint_invariant_witness :
    ((vecResize (make_sa1 [9, 9, 9, 9]) (ROM_HEADER_SIZE + 4) 0).drop
        ENTRYPOINT_OFFSET).take 4
      = u32BeBytes UNZIP_BUF_OFFSET :=
  entrypoint_invariant [9, 9, 9, 9] (ROM_HEADER_SIZE + 4) (by decide) (by decide)

/-- C6: on every successful run — all gates passed, hash matched, ciphers
succeeded, write succeeded — the bytes handed to the output sink start
with the first `SKSA_MIN_BYTES` bytes of the input container unchanged. -/
theorem output_preserves_first_stage (ext : Externs) (args : Args)
    (infile sksa : Bytes) (cmd : CmdHead) (maxPayload : Nat)
    (v2buf : Bytes) (virage2 : Virage2)
    (bootrom sk_key sk_iv skPlain sa1_key sa1_enc : Bytes)
    (hin : args.infile = .ok infile) (hsk : args.sksa = .ok sksa)
    (hlen : ¬ sksa.length < SKSA_MIN_BYTES)
    (hcmd : ext.read_cmd_head ((sksa.drop SK_SIZE).take ext.cmdHeadSize) = .ok cmd)
    (hsub : usizeSub cmd.size ROM_HEADER_SIZE = some maxPayload)
    (hcap : ¬ infile.length > maxPayload)
    (hv2 : args.virage2 = .ok v2buf)
    (hv2d : ext.read_virage2 v2buf = .ok virage2)
    (hbr : args.bootrom = .ok bootrom)
    (hkeys : ext.bootrom_keys bootrom = .ok (sk_key, sk_iv))
    (hdec : ext.aes_dec_cbc (sksa.take SK_SIZE) sk_key sk_iv = some skPlain)
    (hhash : ext.sha1 skPlain = virage2.sk_hash)
    (hdec2 : ext.aes_dec_cbc cmd.key virage2.boot_app_key cmd.common_cmd_iv = some sa1_key)
    (henc : ext.aes_enc_cbc (vecResize (make_sa1 infile) cmd.size 0) sa1_key cmd.iv
      = some sa1_enc)
    (hwr : args.writeOk = true) :
    (build ext args).fst = .ok
    ∧ ∀ out, Op.write out ∈ (build ext args).snd →
        out.take SKSA_MIN_BYTES = sksa.take SKSA_MIN_BYTES := by
  rw [build_eq_tail ext args infile sksa cmd maxPayload hin hsk hlen hcmd hsub hcap]
  rw [buildTail_success ext args infile sksa cmd v2buf virage2 bootrom sk_key sk_iv
    skPlain sa1_key sa1_enc hv2 hv2d hbr hkeys hdec hhash hdec2 henc]
  constructor
  · simp [hwr]
  · intro out hmem
    simp at hmem
    rw [hmem, List.take_append_of_le_length (by rw [List.length_take]; omega)]
    simp [List.take_take]

/-- C6 witness: the successful test run writes `outW`, whose first
`SKSA_MIN_BYTES` bytes are those of `sksaW`. -/
theorem output_preserves_first_stage_witness :
    (build extW argsW).fst = .ok
    ∧ ∀ out, Op.write out ∈ (build extW argsW).snd →
        out.take SKSA_MIN_BYTES = sksaW.take SKSA_MIN_BYTES :=
  output_preserves_first_stage extW argsW [] sksaW cmdW 0 [] virage2W [] key16 key16
    (sksaW.take SK_SIZE) cmdW.key (vecResize (make_sa1 []) cmdW.size 0)
    rfl rfl (by simp [sksaW_length]) rfl (by decide) (by decide)
    rfl rfl rfl rfl rfl rfl rfl rfl rfl

/-- C7: on every successful run, the bytes handed to the output sink have
length exactly `SKSA_MIN_BYTES + cmd.size` — the carried-through first
stage plus a ciphertext of exactly the target image size.  The one
property of the external cipher this needs is that CBC encryption with no
padding preserves the buffer length on success, taken here as the
hypothesis `hencLen` on this call. -/
theorem output_length_exact (ext : Externs) (args : Args)
    (infile sksa : Bytes) (cmd : CmdHead) (maxPayload : Nat)
    (v2buf : Bytes) (virage2 : Virage2)
    (bootrom sk_key sk_iv skPlain sa1_key sa1_enc : Bytes)
    (hin : args.infile = .ok infile) (hsk : args.sksa = .ok sksa)
    (hlen : ¬ sksa.length < SKSA_MIN_BYTES)
    (hcmd : ext.read_cmd_head ((sksa.drop SK_SIZE).take ext.cmdHeadSize) = .ok cmd)
    (hsub : usizeSub cmd.size ROM_HEADER_SIZE = some maxPayload)
    (hcap : ¬ infile.length > maxPayload)
    (hv2 : args.virage2 = .ok v2buf)
    (hv2d : ext.read_virage2 v2buf = .ok virage2)
    (hbr : args.bootrom = .ok bootrom)
    (hkeys : ext.bootrom_keys bootrom = .ok (sk_key, sk_iv))
    (hdec : ext.aes_dec_cbc (sksa.take SK_SIZE) sk_key sk_iv = some skPlain)
    (hhash : ext.sha1 skPlain = virage2.sk_hash)
    (hdec2 : ext.aes_dec_cbc cmd.key virage2.boot_app_key cmd.common_cmd_iv = some sa1_key)
    (henc : ext.aes_enc_cbc (vecResize (make_sa1 infile) cmd.size 0) sa1_key cmd.iv
      = some sa1_enc)
    (hencLen : sa1_enc.length = (vecResize (make_sa1 infile) cmd.size 0).length)
    (hwr : args.writeOk = true) :
    (build ext args).fst = .ok
    ∧ ∀ out, Op.write out ∈ (build ext args).snd →
        out.length = SKSA_MIN_BYTES + cmd.size := by
  rw [build_eq_tail ext args infile sksa cmd maxPayload hin hsk hlen hcmd hsub hcap]
  rw [buildTail_success ext args infile sksa cmd v2buf virage2 bootrom sk_key sk_iv
    skPlain sa1_key sa1_enc hv2 hv2d hbr hkeys hdec hhash hdec2 henc]
  constructor
  · simp [hwr]
  · intro out hmem
    simp at hmem
    rw [hmem]
    rw [List.length_append, List.length_take, hencLen, length_vecResize]
    omega

/-- C7 witness: the successful test run writes a container of length
`SKSA_MIN_BYTES + cmdW.size`. -/
theorem output_length_exact_witness :
    (build extW argsW).fst = .ok
    ∧ ∀ out, Op.write out ∈ (build extW argsW).snd →
        out.length = SKSA_MIN_BYTES + cmdW.size :=
  output_length_exact extW argsW [] sksaW cmdW 0 [] virage2W [] key16 key16
    (sksaW.take SK_SIZE) cmdW.key (vecResize (make_sa1 []) cmdW.size 0)
    rfl rfl (by simp [sksaW_length]) rfl (by decide) (by decide)
    rfl rfl rfl rfl rfl rfl rfl rfl rfl rfl

/-- Any branch of the pipeline tail whose trace passes bytes to the output
sink is the final one: its outcome is success or a failure of the write
itself. -/
theorem buildTail_write_mem (ext : Externs) (args : Args)
    (infile sksa : Bytes) (cmd : CmdHead) (out : Bytes)
    (hw : Op.write out ∈ (buildTail ext args infile sksa cmd).snd) :
    (buildTail ext args infile sksa cmd).fst = .ok
    ∨ (buildTail ext args infile sksa cmd).fst = .err .writeFail := by
  unfold buildTail at hw ⊢
  rcases hv : args.virage2 with _ | v2buf <;> rw [hv] at hw
  · simp at hw
  dsimp only at hw ⊢
  rcases hvd : ext.read_virage2 v2buf with _ | v2 <;> rw [hvd] at hw
  · simp at hw
  dsimp only at hw ⊢
  rcases hbr : args.bootrom with _ | br <;> rw [hbr] at hw
  · simp at hw
  dsimp only at hw ⊢
  rcases hk : ext.bootrom_keys br with _ | ⟨k, iv⟩ <;> rw [hk] at hw
  · simp at hw
  dsimp only at hw ⊢
  rcases hd : ext.aes_dec_cbc (sksa.take SK_SIZE) k iv with _ | sp <;> rw [hd] at hw
  · simp at hw
  dsimp only at hw ⊢
  by_cases hh : ext.sha1 sp ≠ v2.sk_hash
  · rw [if_pos hh] at hw
    simp at hw
  rw [if_neg hh] at hw ⊢
  rcases hd2 : ext.aes_dec_cbc cmd.key v2.boot_app_key cmd.common_cmd_iv with _ | sa1_key
    <;> rw [hd2] at hw
  · simp at hw
  dsimp only at hw ⊢
  rcases he : ext.aes_enc_cbc (vecResize (make_sa1 infile) cmd.size 0) sa1_key cmd.iv
      with _ | e <;> rw [he] at hw
  · simp at hw
  dsimp only at hw ⊢
  rcases args.writeOk with _ | _ <;> simp

/-- C10: whenever a `build` run passes any bytes to the output sink, that
run has passed every other stage: its outcome is success, or a failure of
the write call itself.  Contrapositive of the claim: on every run failing
with a too-short container, oversized payload, decode failure,
key-derivation failure, hash mismatch, cipher abort or input read failure,
nothing is ever written to the output sink. -/
theorem no_output_on_failure (ext : Externs) (args : Args) (out : Bytes)
    (hw : Op.write out ∈ (build ext args).snd) :
    (build ext args).fst = .ok ∨ (build ext args).fst = .err .writeFail := by
  unfold build at hw ⊢
  rcases hin : args.infile with _ | infile <;> rw [hin] at hw
  · simp at hw
  dsimp only at hw ⊢
  rcases hsk : args.sksa with _ | sksa <;> rw [hsk] at hw
  · simp at hw
  dsimp only at hw ⊢
  by_cases hlen : sksa.length < SKSA_MIN_BYTES
  · rw [if_pos hlen] at hw
    simp at hw
  rw [if_neg hlen] at hw ⊢
  rcases hc : ext.read_cmd_head ((sksa.drop SK_SIZE).take ext.cmdHeadSize) with _ | cmd
    <;> rw [hc] at hw
  · simp at hw
  dsimp only at hw ⊢
  rcases hs : usizeSub cmd.size ROM_HEADER_SIZE with _ | maxPayload <;> rw [hs] at hw
  · simp at hw
  dsimp only at hw ⊢
  by_cases hcap : infile.length > maxPayload
  · rw [if_pos hcap] at hw
    simp at hw
  rw [if_neg hcap] at hw ⊢
  exact buildTail_write_mem ext args infile sksa cmd out hw

/-- C10 witness: the successful test run does write (so the theorem's
premise is satisfiable) and its outcome is success. -/
theorem no_output_on_failure_witness :
    (build extW argsW).fst = .ok ∨ (build extW argsW).fst = .err .writeFail :=
  no_output_on_failure extW argsW outW (by rw [buildW_eval]; simp)
